import Mathlib

/-!
Shallow embedding of the core of the `mcp-server` repository:

* the Cal.com HTTP client with bounded exponential-backoff retry
  (`src/features/calcom/calcom.client.ts`: `makeRequest`, `shouldRetry`,
  `calculateDelay`, `handleError`, `CalcomClientError`),
* the derived conversational operations (`getEventTypeOptions`,
  `getSlotsForEventType`) of the extended client variant,
* the service layer (`calcom.service.ts`: `getAvailableSlots` with the
  all-optional `GetSlotsInputSchema` of `calcom.types.ts`),
* the feature registry (`src/infra/features.ts`: `addFeature`,
  `registerAllFeatures`).

JavaScript effects are made explicit: an upstream environment maps each
attempt number to the outcome of that HTTP attempt, and every operation
returns the list of issued requests together with its result.
-/

/-- Model of the JavaScript `x || d` fallback on an optional string field:
`undefined` and the empty string are falsy and select the default. -/
def jsOrElse (x : Option String) (d : String) : String :=
  match x with
  | some s => if s = "" then d else s
  | none => d

/-- Truthiness of an optional string under JavaScript coercion:
present and non-empty. -/
def optStrTruthy (x : Option String) : Bool :=
  match x with
  | some s => !(s == "")
  | none => false

/-- Truthiness of an optional number under JavaScript coercion:
present and non-zero. -/
def optNatTruthy (x : Option Nat) : Bool :=
  match x with
  | some n => !(n == 0)
  | none => false

/-- Error payload shape `{ error: { code, message } }` read by `handleError`
(`CalcomErrorResponse`); each field may be absent because of the optional
chaining `errorData?.error?.message`. -/
structure CalcomErrorBody where
  code : Option String
  message : Option String
deriving DecidableEq

/-- Classification of a failed axios attempt, mirroring the three branches of
`handleError`: a response with a non-2xx status (`error.response`), a request
that got no response (`error.request`), or a request-setup error. -/
inductive AxiosFailure where
  | httpError (status : Nat) (body : Option CalcomErrorBody)
  | networkError
  | setupError (message : String)
deriving DecidableEq

/-- The `CalcomClientError` class: message plus optional HTTP status code and
optional upstream error code. -/
structure CalcomClientError where
  message : String
  statusCode : Option Nat
  code : Option String
deriving DecidableEq

/-- The `RetryConfig` interface; `CalcomClient` defaults are
`{maxRetries: 3, baseDelay: 1000, maxDelay: 10000}`.  `makeRequest` stops
retrying once the attempt counter reaches `maxRetries`, so `maxRetries`
bounds the total number of attempts. -/
structure RetryConfig where
  maxRetries : Nat
  baseDelay : Nat
  maxDelay : Nat
deriving DecidableEq

/-- `CalcomClient.shouldRetry`: retry when no response was received, or when
the response status is in `[500, 600)`. -/
def shouldRetry : AxiosFailure → Bool
  | .httpError status _ => 500 ≤ status && status < 600
  | .networkError => true
  | .setupError _ => true

/-- `CalcomClient.calculateDelay`: exponential backoff
`min(baseDelay * 2^(attempt-1), maxDelay)`. -/
def calculateDelay (cfg : RetryConfig) (attempt : Nat) : Nat :=
  min (cfg.baseDelay * 2 ^ (attempt - 1)) cfg.maxDelay

/-- `CalcomClient.handleError`: convert an axios failure into a
`CalcomClientError`.  For a response failure the upstream message and code
are copied through when present (JavaScript `||` fallback, so an empty
string also falls back); a network failure carries no status and no code. -/
def handleError : AxiosFailure → CalcomClientError
  | .httpError status body =>
    ⟨jsOrElse (body.bind (·.message)) s!"HTTP {status} error",
     some status,
     some (jsOrElse (body.bind (·.code)) "HTTP_ERROR")⟩
  | .networkError =>
    ⟨"Network error: Unable to reach Cal.com API", none, none⟩
  | .setupError message =>
    ⟨s!"Request error: {message}", none, none⟩

/-- Observable behaviour of one `makeRequest` call: how many HTTP attempts
were issued, which backoff delays were slept between them, and the final
outcome. -/
structure ReqTrace (T : Type) where
  attempts : Nat
  delays : List Nat
  result : Except CalcomClientError T

/-- `CalcomClient.makeRequest`, with the upstream behaviour supplied as a map
from attempt number (1-indexed) to that attempt's outcome.  The recursion of
the source is on the unbounded attempt counter and terminates because the
guard `attempt >= maxRetries` stops it; here a structural `fuel` argument
plays that role.  `makeRequest` instantiates `fuel := maxRetries`, which
keeps `maxRetries < fuel + attempt` invariant, so the fuel-exhausted base
case can only be reached with `maxRetries ≤ attempt`, where it returns the
same terminal failure the guard returns. -/
def makeRequestAux {T : Type} (cfg : RetryConfig) (upstream : Nat → Except AxiosFailure T) :
    Nat → Nat → ReqTrace T
  | 0, attempt =>
    match upstream attempt with
    | .ok v => ⟨1, [], .ok v⟩
    | .error f => ⟨1, [], .error (handleError f)⟩
  | fuel + 1, attempt =>
    match upstream attempt with
    | .ok v => ⟨1, [], .ok v⟩
    | .error f =>
      if cfg.maxRetries ≤ attempt || !shouldRetry f then
        ⟨1, [], .error (handleError f)⟩
      else
        let rest := makeRequestAux cfg upstream fuel (attempt + 1)
        ⟨rest.attempts + 1, calculateDelay cfg attempt :: rest.delays, rest.result⟩

/-- One logical request: `makeRequest(config)` starting at `attempt = 1`. -/
def makeRequest {T : Type} (cfg : RetryConfig) (upstream : Nat → Except AxiosFailure T) :
    ReqTrace T :=
  makeRequestAux cfg upstream cfg.maxRetries 1

/-- The `CalcomEventType` record fields the core logic reads (remaining
upstream metadata fields are never inspected by the embedded operations). -/
structure CalcomEventType where
  id : Nat
  title : String
  slug : String
  length : Nat
  hidden : Bool
  position : Nat
  userId : Nat
  teamId : Option Nat
  requiresConfirmation : Option Bool
  price : Option Nat
  currency : Option String
deriving DecidableEq

/-- The `EventTypeOption` projection offered for user selection. -/
structure EventTypeOption where
  id : Nat
  title : String
  description : String
  duration : String
  requiresConfirmation : Option Bool
deriving DecidableEq

/-- A slot record of a `/v2/slots` response. -/
structure CalcomSlot where
  time : String
  attendees : Option Nat
deriving DecidableEq

/-- `CalcomSlotsResponse`: date-keyed map of slot lists, modelled as an
association list. -/
structure CalcomSlotsResponse where
  slots : List (String × List CalcomSlot)
deriving DecidableEq

/-- `GetSlotsByUsernameParams` (the source field `end` is spelled `end_`,
`end` being reserved). -/
structure GetSlotsByUsernameParams where
  username : String
  eventTypeSlug : String
  start : String
  end_ : String
  timeZone : String
deriving DecidableEq

/-- `GetSlotsByEventTypeIdParams`. -/
structure GetSlotsByEventTypeIdParams where
  eventTypeId : Nat
  start : String
  end_ : String
  timeZone : String
deriving DecidableEq

/-- Case-fold an ASCII code point: uppercase letters `A`–`Z` map onto their
lowercase forms; other code points are unchanged. -/
def caseFold (n : Nat) : Nat :=
  if 65 ≤ n ∧ n ≤ 90 then n + 32 else n

/-- Case rank of an ASCII code point: `1` for uppercase `A`–`Z`, else `0`.
Lowercase sorts before uppercase at the tie-breaking level. -/
def caseRank (n : Nat) : Nat :=
  if 65 ≤ n ∧ n ≤ 90 then 1 else 0

/-- Primary collation key of a string: the case-folded code points. -/
def primaryKey (s : String) : List Nat :=
  s.data.map (fun c => caseFold c.toNat)

/-- Tie-breaking collation key of a string: the case ranks of its code
points. -/
def caseKey (s : String) : List Nat :=
  s.data.map (fun c => caseRank c.toNat)

/-- Lexicographic comparison of code-point lists. -/
def cmpList : List Nat → List Nat → Ordering
  | [], [] => .eq
  | [], _ :: _ => .lt
  | _ :: _, [] => .gt
  | a :: as, b :: bs => if a < b then .lt else if b < a then .gt else cmpList as bs

/-- Comparison underlying `String.prototype.localeCompare` with the default
locale, modelled for ASCII strings after the ICU root collation: compare
case-insensitively first; on a tie, lowercase precedes uppercase. -/
def lcCmp (s t : String) : Ordering :=
  match cmpList (primaryKey s) (primaryKey t) with
  | .eq => cmpList (caseKey s) (caseKey t)
  | o => o

/-- Model of `s.localeCompare(t)` (sign only, which is all the sort
comparator uses). -/
def localeCompare (s t : String) : Int :=
  match lcCmp s t with
  | .lt => -1
  | .eq => 0
  | .gt => 1

/-- The sort order induced by the comparator
`(a, b) => a.title.localeCompare(b.title)`: a non-positive comparator value
keeps `a` before `b`. -/
def strLe (s t : String) : Prop := localeCompare s t ≤ 0

instance : DecidableRel strLe := fun s t => by unfold strLe; infer_instance

/-- Comparator relation on `EventTypeOption` used by
`getEventTypeOptions`. -/
def titleLe (a b : EventTypeOption) : Prop := strLe a.title b.title

instance : DecidableRel titleLe := fun a b => by unfold titleLe; infer_instance

/-- `CalcomClient.formatDuration`: user-friendly rendering of a duration in
minutes. -/
def formatDuration (minutes : Nat) : String :=
  if minutes < 60 then
    s!"{minutes} min"
  else if minutes % 60 = 0 then
    let hours := minutes / 60
    s!"{hours} hour" ++ (if 1 < hours then "s" else "")
  else
    let hours := minutes / 60
    let remainingMinutes := minutes % 60
    s!"{hours}h {remainingMinutes}m"

/-- `CalcomClient.formatEventTypeDescription`: duration, confirmation, team
and price parts joined by a bullet separator.  The team and price guards are
JavaScript truthiness tests, so `0` is treated as absent. -/
def formatEventTypeDescription (eventType : CalcomEventType) : String :=
  let parts : List String :=
    [s!"{formatDuration eventType.length} meeting"]
    ++ (if eventType.requiresConfirmation.getD false then ["requires confirmation"] else [])
    ++ (if optNatTruthy eventType.teamId then ["team meeting"] else [])
    ++ (match eventType.price with
        | some price => if price > 0 then [jsOrElse eventType.currency "$" ++ s!"{price}"] else []
        | none => [])
  String.intercalate " • " parts

/-- Projection of one `CalcomEventType` to an `EventTypeOption`, as built by
the `map` step of `getEventTypeOptions`. -/
def eventTypeToOption (eventType : CalcomEventType) : EventTypeOption :=
  ⟨eventType.id,
   eventType.title,
   formatEventTypeDescription eventType,
   formatDuration eventType.length,
   eventType.requiresConfirmation⟩

/-- `CalcomClient.getEventTypeOptions` applied to an already-fetched list of
event types: drop hidden entries, project to options and sort by
`title.localeCompare`.  JavaScript `Array.prototype.sort` is a stable sort
and for a consistent comparator the stable sorted permutation is unique, so
stable insertion sort is an exact model of it. -/
def getEventTypeOptions (eventTypes : List CalcomEventType) : List EventTypeOption :=
  List.insertionSort titleLe
    ((eventTypes.filter (fun eventType => !eventType.hidden)).map eventTypeToOption)

/-- One upstream HTTP request, identified by endpoint and parameters. -/
inductive ApiRequest where
  | eventTypes
  | slotsByEventTypeId (params : GetSlotsByEventTypeIdParams)
  | slotsByUsername (params : GetSlotsByUsernameParams)
deriving DecidableEq

/-- Upstream behaviour: for each endpoint, the parsed body or failure any
given attempt (1-indexed) would observe. -/
structure CalcomEnv where
  eventTypes : Nat → Except AxiosFailure (List CalcomEventType)
  slotsByEventTypeId : GetSlotsByEventTypeIdParams → Nat → Except AxiosFailure CalcomSlotsResponse
  slotsByUsername : GetSlotsByUsernameParams → Nat → Except AxiosFailure CalcomSlotsResponse

/-- `CalcomClient.getEventTypes`: one retried request to
`GET /v1/event-types`, returning `response.data.event_types`. -/
def getEventTypes (cfg : RetryConfig) (env : CalcomEnv) : ReqTrace (List CalcomEventType) :=
  makeRequest cfg env.eventTypes

/-- `CalcomClient.getSlotsByEventTypeId`: one retried request to
`GET /v2/slots` keyed by event type id. -/
def getSlotsByEventTypeId (cfg : RetryConfig) (env : CalcomEnv)
    (params : GetSlotsByEventTypeIdParams) : ReqTrace CalcomSlotsResponse :=
  makeRequest cfg (env.slotsByEventTypeId params)

/-- `CalcomClient.getSlotsByUsername`: one retried request to
`GET /v2/slots` keyed by username and event type slug. -/
def getSlotsByUsername (cfg : RetryConfig) (env : CalcomEnv)
    (params : GetSlotsByUsernameParams) : ReqTrace CalcomSlotsResponse :=
  makeRequest cfg (env.slotsByUsername params)

/-- `CalcomClient.getSlotsForEventType`: fetch all event types, locate the
requested id with `find`, fail with a client-side not-found
`CalcomClientError` (no status code) when absent, otherwise fetch that
type's slots.  Returns the full list of issued HTTP requests (one entry per
attempt) next to the outcome. -/
def getSlotsForEventType (cfg : RetryConfig) (env : CalcomEnv) (eventTypeId : Nat)
    (start end_ timeZone : String) :
    List ApiRequest × Except CalcomClientError (CalcomEventType × CalcomSlotsResponse) :=
  let r1 := getEventTypes cfg env
  let t1 := List.replicate r1.attempts ApiRequest.eventTypes
  match r1.result with
  | .error e => (t1, .error e)
  | .ok allEventTypes =>
    match allEventTypes.find? (fun et => et.id == eventTypeId) with
    | none => (t1, .error ⟨s!"Event type with ID {eventTypeId} not found", none, none⟩)
    | some eventType =>
      let params : GetSlotsByEventTypeIdParams := ⟨eventTypeId, start, end_, timeZone⟩
      let r2 := getSlotsByEventTypeId cfg env params
      (t1 ++ List.replicate r2.attempts (ApiRequest.slotsByEventTypeId params),
       r2.result.map (fun slots => (eventType, slots)))

/-- `GetSlotsInput` of the legacy flow (`GetSlotsInputSchema`): required
`start`/`end` datetimes, optional `username`, `eventTypeSlug`,
`eventTypeId`, `timeZone`. -/
structure GetSlotsInput where
  start : String
  end_ : String
  username : Option String
  eventTypeSlug : Option String
  eventTypeId : Option Nat
  timeZone : Option String
deriving DecidableEq

/-- Decimal digit test on a character. -/
def isDigitChar (c : Char) : Bool :=
  48 ≤ c.toNat && c.toNat ≤ 57

/-- Tail of the Zod datetime pattern after the seconds field: either `Z`
directly or a dot, one or more digits, then `Z`. -/
def isoSecondsTail : List Char → Bool
  | ['Z'] => true
  | c :: cs => isDigitChar c && isoSecondsTail cs
  | [] => false

/-- Model of Zod `z.string().datetime()` (no offset allowed): the pattern
`dddd-dd-ddTdd:dd:dd(.d+)?Z`. -/
def isoDatetime (s : String) : Bool :=
  match s.data with
  | y1 :: y2 :: y3 :: y4 :: '-' :: m1 :: m2 :: '-' :: d1 :: d2 :: 'T' ::
      h1 :: h2 :: ':' :: n1 :: n2 :: ':' :: s1 :: s2 :: rest =>
    isDigitChar y1 && isDigitChar y2 && isDigitChar y3 && isDigitChar y4 &&
    isDigitChar m1 && isDigitChar m2 && isDigitChar d1 && isDigitChar d2 &&
    isDigitChar h1 && isDigitChar h2 && isDigitChar n1 && isDigitChar n2 &&
    isDigitChar s1 && isDigitChar s2 &&
    (match rest with
     | ['Z'] => true
     | '.' :: c :: cs => isDigitChar c && isoSecondsTail cs
     | _ => false)
  | _ => false

/-- `GetSlotsInputSchema.parse`: both datetime fields must match the Zod
datetime pattern; the optional fields pass through unchanged (the
`.default('UTC').optional()` wrapper leaves an absent `timeZone` absent,
which is why the service re-applies the `|| 'UTC'` fallback). -/
def parseGetSlotsInput (input : GetSlotsInput) : Except String GetSlotsInput :=
  if !isoDatetime input.start then .error "start: Invalid datetime"
  else if !isoDatetime input.end_ then .error "end: Invalid datetime"
  else .ok input

/-- Failure kinds observable from `CalcomService.getAvailableSlots`: a Zod
validation failure, a plain thrown `Error`, or a `CalcomClientError`
propagated from the client. -/
inductive SvcFailure where
  | validation (message : String)
  | jsError (message : String)
  | client (e : CalcomClientError)
deriving DecidableEq

/-- `CalcomService.getAvailableSlots` (legacy flow): validate, default the
time zone, then route on JavaScript truthiness of
`username && eventTypeSlug`, else `eventTypeId`, else throw
`Error('Either username/eventTypeSlug or eventTypeId must be provided')`.
Returns issued upstream requests next to the outcome. -/
def getAvailableSlots (cfg : RetryConfig) (env : CalcomEnv) (input : GetSlotsInput) :
    List ApiRequest × Except SvcFailure CalcomSlotsResponse :=
  match parseGetSlotsInput input with
  | .error m => ([], .error (.validation m))
  | .ok validatedInput =>
    let timeZone := jsOrElse validatedInput.timeZone "UTC"
    if optStrTruthy validatedInput.username && optStrTruthy validatedInput.eventTypeSlug then
      let params : GetSlotsByUsernameParams :=
        ⟨validatedInput.username.getD "", validatedInput.eventTypeSlug.getD "",
         validatedInput.start, validatedInput.end_, timeZone⟩
      let r := getSlotsByUsername cfg env params
      (List.replicate r.attempts (ApiRequest.slotsByUsername params),
       r.result.mapError SvcFailure.client)
    else if optNatTruthy validatedInput.eventTypeId then
      let params : GetSlotsByEventTypeIdParams :=
        ⟨validatedInput.eventTypeId.getD 0, validatedInput.start, validatedInput.end_, timeZone⟩
      let r := getSlotsByEventTypeId cfg env params
      (List.replicate r.attempts (ApiRequest.slotsByEventTypeId params),
       r.result.mapError SvcFailure.client)
    else
      ([], .error (.jsError "Either username/eventTypeSlug or eventTypeId must be provided"))

/-- `FeatureInfo` descriptor. -/
structure FeatureInfo where
  name : String
  description : String
  version : String
  enabled : Bool
deriving DecidableEq

/-- `FeatureRegistrationResult`. -/
structure FeatureRegistrationResult where
  success : Bool
  error : Option String
  toolsRegistered : Option (List String)
  info : Option FeatureInfo
deriving DecidableEq

/-- A feature module as the registry sees it: its descriptor, its readiness
check, and its registration behaviour — either a returned result or a thrown
error, which the registry reads as `error.message`. -/
structure Feature where
  info : FeatureInfo
  canLoad : Bool
  register : Except String FeatureRegistrationResult

/-- `FeatureRegistry.addFeature`: store keyed by descriptor name with
JavaScript `Map.set` semantics — overwriting an existing name keeps its
original insertion position, a new name is appended. -/
def addFeature (features : List Feature) (feature : Feature) : List Feature :=
  if features.any (fun g => g.info.name == feature.info.name) then
    features.map (fun g => if g.info.name == feature.info.name then feature else g)
  else
    features ++ [feature]

/-- The standard skip message produced when `canLoad()` is false. -/
def cannotLoadMessage (name : String) : String :=
  s!"Feature {name} cannot be loaded (missing configuration or dependencies)"

/-- One iteration of the `registerAllFeatures` loop body: skip outcome when
`canLoad()` is false (without invoking `register`), the returned result when
registration returns, and a failure outcome built from the thrown error's
message when registration throws (the loop's try/catch boundary). -/
def registerFeatureStep (feature : Feature) : FeatureRegistrationResult :=
  if !feature.canLoad then
    ⟨false, some (cannotLoadMessage feature.info.name), none, some feature.info⟩
  else
    match feature.register with
    | .ok result => result
    | .error message => ⟨false, some message, none, some feature.info⟩

/-- `FeatureRegistry.registerAllFeatures`: iterate the stored features in
insertion order, producing one outcome each; a caught registration error
never stops the iteration. -/
def registerAllFeatures (features : List Feature) : List FeatureRegistrationResult :=
  features.map registerFeatureStep

/-- Code-point lexicographic string order (the "locale-naive" ordering named
by the specification), for comparison against the code's
`localeCompare`-based ordering. -/
def cpLe (s t : String) : Bool :=
  match cmpList (s.data.map Char.toNat) (t.data.map Char.toNat) with
  | .gt => false
  | _ => true

/-- Status observed by a failed attempt: the HTTP status when a response
arrived, nothing for a network or setup failure. -/
def statusOf : AxiosFailure → Option Nat
  | .httpError status _ => some status
  | .networkError => none
  | .setupError _ => none

/-- Sample feature whose registration succeeds. -/
def sampleFeatureOk : Feature :=
  ⟨⟨"one", "first sample", "1.0.0", true⟩, true,
   .ok ⟨true, none, some ["tool-one"], some ⟨"one", "first sample", "1.0.0", true⟩⟩⟩

/-- Sample feature whose registration throws. -/
def sampleFeatureThrows : Feature :=
  ⟨⟨"two", "second sample", "1.0.0", true⟩, true, .error "boom"⟩

/-- Sample feature whose readiness check fails. -/
def sampleFeatureUnloadable : Feature :=
  ⟨⟨"three", "third sample", "1.0.0", true⟩, false,
   .ok ⟨true, none, some ["tool-three"], some ⟨"three", "third sample", "1.0.0", true⟩⟩⟩

lemma makeRequestAux_delays_getD {T : Type} (cfg : RetryConfig)
    (upstream : Nat → Except AxiosFailure T) :
    ∀ (fuel attempt k : Nat), k < (makeRequestAux cfg upstream fuel attempt).delays.length →
      (makeRequestAux cfg upstream fuel attempt).delays.getD k 0 =
        calculateDelay cfg (attempt + k) := by
  intro fuel
  induction fuel with
  | zero =>
    intro attempt k h
    cases hup : upstream attempt <;> simp [makeRequestAux, hup] at h
  | succ fuel ih =>
    intro attempt k h
    cases hup : upstream attempt with
    | ok v => simp [makeRequestAux, hup] at h
    | error f =>
      by_cases hguard : (decide (cfg.maxRetries ≤ attempt) || !shouldRetry f) = true
      · simp [makeRequestAux, hup, hguard] at h
      · rw [Bool.not_eq_true] at hguard
        have hlen := h
        simp only [makeRequestAux, hup, hguard, Bool.false_eq_true, if_false,
          List.length_cons] at hlen
        cases k with
        | zero =>
          simp [makeRequestAux, hup, hguard]
        | succ k =>
          have hk : k < (makeRequestAux cfg upstream fuel (attempt + 1)).delays.length := by
            omega
          have hrec := ih (attempt + 1) k hk
          simp only [makeRequestAux, hup, hguard, Bool.false_eq_true, if_false,
            List.getD_cons_succ]
          rw [hrec]
          have harith : attempt + 1 + k = attempt + (k + 1) := by omega
          rw [harith]

lemma makeRequestAux_allfail {T : Type} (cfg : RetryConfig)
    (upstream : Nat → Except AxiosFailure T) :
    ∀ (fuel attempt : Nat), cfg.maxRetries ≤ fuel + attempt → 1 ≤ attempt →
      attempt ≤ cfg.maxRetries →
      (∀ i, attempt ≤ i → i ≤ cfg.maxRetries →
        ∃ f, upstream i = .error f ∧ shouldRetry f = true) →
      (makeRequestAux cfg upstream fuel attempt).attempts = cfg.maxRetries - attempt + 1 ∧
      ∃ f, upstream cfg.maxRetries = .error f ∧
        (makeRequestAux cfg upstream fuel attempt).result = .error (handleError f) := by
  intro fuel
  induction fuel with
  | zero =>
    intro attempt hf _ ha2 h
    have heq : attempt = cfg.maxRetries := by omega
    obtain ⟨f, hup, _⟩ := h attempt (le_refl _) ha2
    subst heq
    refine ⟨by simp [makeRequestAux, hup], f, hup, by simp [makeRequestAux, hup]⟩
  | succ fuel ih =>
    intro attempt hf ha1 ha2 h
    obtain ⟨f, hup, hretry⟩ := h attempt (le_refl _) ha2
    by_cases hend : cfg.maxRetries ≤ attempt
    · have heq : attempt = cfg.maxRetries := by omega
      have hguard : (decide (cfg.maxRetries ≤ attempt) || !shouldRetry f) = true := by
        simp [hend]
      subst heq
      refine ⟨by simp [makeRequestAux, hup, hguard], f, hup,
        by simp [makeRequestAux, hup, hguard]⟩
    · have hguard : (decide (cfg.maxRetries ≤ attempt) || !shouldRetry f) = false := by
        simp [hend, hretry]
      have hrec := ih (attempt + 1) (by omega) (by omega) (by omega)
        (fun i hi1 hi2 => h i (by omega) hi2)
      obtain ⟨hcount, g, hg, hres⟩ := hrec
      refine ⟨?_, g, hg, ?_⟩
      · simp only [makeRequestAux, hup, hguard, Bool.false_eq_true, if_false]
        simp only [hcount]
        omega
      · simp only [makeRequestAux, hup, hguard, Bool.false_eq_true, if_false]
        exact hres

/-- C1: a first attempt failing with a response status in `[400, 500)` is
terminal — exactly one attempt, no backoff sleep, and the call fails at once
with a `CalcomClientError` carrying that status. -/
theorem c1_4xx_single_attempt {T : Type} (cfg : RetryConfig)
    (upstream : Nat → Except AxiosFailure T) (status : Nat) (body : Option CalcomErrorBody)
    (h1 : upstream 1 = .error (.httpError status body))
    (h2 : 400 ≤ status) (h3 : status < 500) :
    (makeRequest cfg upstream).attempts = 1 ∧
    (makeRequest cfg upstream).delays = [] ∧
    (makeRequest cfg upstream).result = .error (handleError (.httpError status body)) ∧
    (handleError (.httpError status body)).statusCode = some status := by
  have hs : shouldRetry (.httpError status body) = false := by
    simp only [shouldRetry, Bool.and_eq_false_iff, decide_eq_false_iff_not]
    omega
  unfold makeRequest
  cases hm : cfg.maxRetries with
  | zero => exact ⟨by simp [makeRequestAux, h1], by simp [makeRequestAux, h1],
      by simp [makeRequestAux, h1], by simp [handleError]⟩
  | succ n =>
    have hguard : (decide (cfg.maxRetries ≤ 1) || !shouldRetry (.httpError status body)) = true := by
      simp [hs]
    exact ⟨by simp [makeRequestAux, h1, hguard], by simp [makeRequestAux, h1, hguard],
      by simp [makeRequestAux, h1, hguard], by simp [handleError]⟩

/-- Witness for C1 at a concrete 404 failure with the default retry
configuration. -/
theorem c1_4xx_single_attempt_witness :
    (makeRequest (T := Unit) ⟨3, 1000, 10000⟩
        (fun _ => .error (.httpError 404 none))).attempts = 1 ∧
    (makeRequest (T := Unit) ⟨3, 1000, 10000⟩
        (fun _ => .error (.httpError 404 none))).delays = [] ∧
    (makeRequest (T := Unit) ⟨3, 1000, 10000⟩
        (fun _ => .error (.httpError 404 none))).result =
      .error (handleError (.httpError 404 none)) ∧
    (handleError (.httpError 404 none)).statusCode = some 404 :=
  c1_4xx_single_attempt ⟨3, 1000, 10000⟩ (fun _ => .error (.httpError 404 none)) 404 none
    rfl (by decide) (by decide)

/-- C2: whenever a backoff sleep is inserted after attempt `n` (1-indexed),
its duration is `min(baseDelay * 2^(n-1), maxDelay)`, for every retry
configuration and upstream behaviour. -/
theorem c2_backoff_delay {T : Type} (cfg : RetryConfig)
    (upstream : Nat → Except AxiosFailure T) (n : Nat) (h1 : 1 ≤ n)
    (h2 : n - 1 < (makeRequest cfg upstream).delays.length) :
    (makeRequest cfg upstream).delays.getD (n - 1) 0 =
      min (cfg.baseDelay * 2 ^ (n - 1)) cfg.maxDelay := by
  have h := makeRequestAux_delays_getD cfg upstream cfg.maxRetries 1 (n - 1) h2
  have harith : 1 + (n - 1) = n := by omega
  rw [harith] at h
  exact h

/-- Witness for C2: with `{maxRetries: 3, baseDelay: 100, maxDelay: 1000}`
and persistent network failures, the sleep after attempt 2 is 200 ms. -/
theorem c2_backoff_delay_witness :
    (makeRequest (T := Unit) ⟨3, 100, 1000⟩
        (fun _ => .error .networkError)).delays.getD (2 - 1) 0 =
      min (100 * 2 ^ (2 - 1)) 1000 :=
  c2_backoff_delay ⟨3, 100, 1000⟩ (fun _ => .error .networkError) 2 (by decide) (by decide)

/-- C3: when every attempt fails with a 5xx response or a network failure,
the request is attempted exactly `maxRetries` times in total and then fails
with the `CalcomClientError` built from the last attempt's failure, whose
`statusCode` is the status observed on that last attempt (absent for a
network failure). -/
theorem c3_retryable_exhaustion {T : Type} (cfg : RetryConfig)
    (upstream : Nat → Except AxiosFailure T) (hmax : 1 ≤ cfg.maxRetries)
    (hfail : ∀ i, 1 ≤ i → i ≤ cfg.maxRetries →
      ∃ f, upstream i = .error f ∧
        ((∃ status body, f = .httpError status body ∧ 500 ≤ status ∧ status < 600) ∨
          f = .networkError)) :
    (makeRequest cfg upstream).attempts = cfg.maxRetries ∧
    ∃ f, upstream cfg.maxRetries = .error f ∧
      (makeRequest cfg upstream).result = .error (handleError f) ∧
      (handleError f).statusCode = statusOf f := by
  have hfail' : ∀ i, 1 ≤ i → i ≤ cfg.maxRetries →
      ∃ f, upstream i = .error f ∧ shouldRetry f = true := by
    intro i hi1 hi2
    obtain ⟨f, hup, hkind⟩ := hfail i hi1 hi2
    refine ⟨f, hup, ?_⟩
    rcases hkind with ⟨status, body, rfl, hs1, hs2⟩ | rfl
    · simp only [shouldRetry, Bool.and_eq_true, decide_eq_true_eq]
      omega
    · rfl
  have h := makeRequestAux_allfail cfg upstream cfg.maxRetries 1 (by omega) (le_refl 1) hmax hfail'
  obtain ⟨hcount, f, hup, hres⟩ := h
  refine ⟨?_, f, hup, hres, ?_⟩
  · unfold makeRequest
    omega
  · obtain ⟨g, hup', hkind⟩ := hfail cfg.maxRetries hmax (le_refl _)
    have hfg : f = g := by
      rw [hup] at hup'
      exact (Except.error.injEq _ _).mp hup'
    subst hfg
    rcases hkind with ⟨status, body, rfl, _, _⟩ | rfl
    · simp [handleError, statusOf]
    · simp [handleError, statusOf]

/-- Witness for C3: two 503 responses under `{maxRetries: 2}` exhaust the
attempts and surface status 503. -/
theorem c3_retryable_exhaustion_witness :
    (makeRequest (T := Unit) ⟨2, 100, 1000⟩
        (fun _ => .error (.httpError 503 none))).attempts = 2 ∧
    ∃ f, (fun _ : Nat => (.error (.httpError 503 none) : Except AxiosFailure Unit)) 2 = .error f ∧
      (makeRequest (T := Unit) ⟨2, 100, 1000⟩
          (fun _ => .error (.httpError 503 none))).result = .error (handleError f) ∧
      (handleError f).statusCode = statusOf f :=
  c3_retryable_exhaustion ⟨2, 100, 1000⟩ (fun _ => .error (.httpError 503 none)) (by decide)
    (fun i _ _ => ⟨.httpError 503 none, rfl, Or.inl ⟨503, none, rfl, by decide, by decide⟩⟩)

lemma cmpList_eq_iff : ∀ a b : List Nat, cmpList a b = .eq ↔ a = b := by
  intro a
  induction a with
  | nil =>
    intro b
    cases b <;> simp [cmpList]
  | cons x as ih =>
    intro b
    cases b with
    | nil => simp [cmpList]
    | cons y bs =>
      simp only [cmpList, List.cons.injEq]
      by_cases h1 : x < y
      · simp only [h1, if_true]
        constructor
        · intro h; exact absurd h (by decide)
        · intro h; omega
      · by_cases h2 : y < x
        · simp only [h1, h2, if_true, if_false]
          constructor
          · intro h; exact absurd h (by decide)
          · intro h; omega
        · simp only [h1, h2, if_false]
          rw [ih bs]
          constructor
          · intro h; exact ⟨by omega, h⟩
          · intro h; exact h.2

lemma cmpList_swap : ∀ a b : List Nat, cmpList b a = (cmpList a b).swap := by
  intro a
  induction a with
  | nil =>
    intro b
    cases b <;> simp [cmpList, Ordering.swap]
  | cons x as ih =>
    intro b
    cases b with
    | nil => simp [cmpList, Ordering.swap]
    | cons y bs =>
      simp only [cmpList]
      by_cases h1 : x < y
      · have h2 : ¬ y < x := by omega
        simp [h1, h2, Ordering.swap]
      · by_cases h2 : y < x
        · simp [h1, h2, Ordering.swap]
        · simp [h1, h2, ih bs]

lemma cmpList_lt_trans : ∀ a b c : List Nat,
    cmpList a b = .lt → cmpList b c = .lt → cmpList a c = .lt := by
  intro a
  induction a with
  | nil =>
    intro b c h1 h2
    cases b with
    | nil => simp [cmpList] at h1
    | cons y bs =>
      cases c with
      | nil => simp [cmpList] at h2
      | cons z cs => simp [cmpList]
  | cons x as ih =>
    intro b c h1 h2
    cases b with
    | nil => simp [cmpList] at h1
    | cons y bs =>
      cases c with
      | nil => simp [cmpList] at h2
      | cons z cs =>
        simp only [cmpList] at h1 h2 ⊢
        by_cases hxy : x < y
        · by_cases hyz : y < z
          · have hxz : x < z := by omega
            simp [hxz]
          · by_cases hzy : z < y
            · simp [hyz, hzy] at h2
            · have hxz : x < z := by omega
              simp [hxz]
        · by_cases hyx : y < x
          · simp [hxy, hyx] at h1
          · simp only [hxy, hyx, if_false] at h1
            by_cases hyz : y < z
            · have hxz : x < z := by omega
              simp [hxz]
            · by_cases hzy : z < y
              · simp [hyz, hzy] at h2
              · simp only [hyz, hzy, if_false] at h2
                have hxz1 : ¬ x < z := by omega
                have hxz2 : ¬ z < x := by omega
                simp only [hxz1, hxz2, if_false]
                exact ih bs cs h1 h2

lemma caseKeyNat_inj (m n : Nat) (h1 : caseFold m = caseFold n)
    (h2 : caseRank m = caseRank n) : m = n := by
  unfold caseFold at h1
  unfold caseRank at h2
  by_cases hm : 65 ≤ m ∧ m ≤ 90
  · by_cases hn : 65 ≤ n ∧ n ≤ 90
    · rw [if_pos hm, if_pos hn] at h1
      omega
    · rw [if_pos hm, if_neg hn] at h2
      omega
  · by_cases hn : 65 ≤ n ∧ n ≤ 90
    · rw [if_neg hm, if_pos hn] at h2
      omega
    · rw [if_neg hm, if_neg hn] at h1
      omega

lemma charKeys_inj : ∀ as bs : List Char,
    as.map (fun c => caseFold c.toNat) = bs.map (fun c => caseFold c.toNat) →
    as.map (fun c => caseRank c.toNat) = bs.map (fun c => caseRank c.toNat) →
    as = bs := by
  intro as
  induction as with
  | nil =>
    intro bs h1 _
    cases bs with
    | nil => rfl
    | cons b bs => simp at h1
  | cons a as ih =>
    intro bs h1 h2
    cases bs with
    | nil => simp at h1
    | cons b bs =>
      simp only [List.map_cons, List.cons.injEq] at h1 h2
      have hab : a = b := by
        apply Char.eq_of_val_eq
        apply UInt32.eq_of_toBitVec_eq
        apply BitVec.eq_of_toNat_eq
        exact caseKeyNat_inj _ _ h1.1 h2.1
      rw [hab, ih bs h1.2 h2.2]

lemma string_keys_inj (s t : String) (h1 : primaryKey s = primaryKey t)
    (h2 : caseKey s = caseKey t) : s = t := by
  apply String.ext
  exact charKeys_inj s.data t.data h1 h2

lemma lcCmp_eq_iff (s t : String) : lcCmp s t = .eq ↔ s = t := by
  unfold lcCmp
  constructor
  · intro h
    cases hp : cmpList (primaryKey s) (primaryKey t) with
    | eq =>
      simp only [hp] at h
      exact string_keys_inj s t ((cmpList_eq_iff _ _).mp hp) ((cmpList_eq_iff _ _).mp h)
    | lt => simp [hp] at h
    | gt => simp [hp] at h
  · rintro rfl
    rw [(cmpList_eq_iff _ _).mpr rfl]
    exact (cmpList_eq_iff _ _).mpr rfl

lemma lcCmp_swap (s t : String) : lcCmp t s = (lcCmp s t).swap := by
  unfold lcCmp
  rw [cmpList_swap (primaryKey s) (primaryKey t), cmpList_swap (caseKey s) (caseKey t)]
  cases cmpList (primaryKey s) (primaryKey t) <;> simp [Ordering.swap]

lemma lcCmp_lt_trans (s t u : String) (h1 : lcCmp s t = .lt) (h2 : lcCmp t u = .lt) :
    lcCmp s u = .lt := by
  unfold lcCmp at h1 h2 ⊢
  cases hp1 : cmpList (primaryKey s) (primaryKey t) with
  | lt =>
    cases hp2 : cmpList (primaryKey t) (primaryKey u) with
    | lt => simp [cmpList_lt_trans _ _ _ hp1 hp2]
    | eq =>
      have he := (cmpList_eq_iff _ _).mp hp2
      rw [← he]
      simp [hp1]
    | gt => simp [hp2] at h2
  | eq =>
    have he := (cmpList_eq_iff _ _).mp hp1
    simp only [hp1] at h1
    cases hp2 : cmpList (primaryKey t) (primaryKey u) with
    | lt =>
      rw [he]
      simp [hp2]
    | eq =>
      have he2 := (cmpList_eq_iff _ _).mp hp2
      simp only [hp2] at h2
      have hsu : cmpList (primaryKey s) (primaryKey u) = .eq := by
        rw [he, he2]
        exact (cmpList_eq_iff _ _).mpr rfl
      simp only [hsu]
      exact cmpList_lt_trans _ _ _ h1 h2
    | gt => simp [hp2] at h2
  | gt => simp [hp1] at h1

lemma strLe_iff_ne_gt (s t : String) : strLe s t ↔ lcCmp s t ≠ .gt := by
  unfold strLe localeCompare
  cases h : lcCmp s t <;> simp

lemma strLe_total (s t : String) : strLe s t ∨ strLe t s := by
  rw [strLe_iff_ne_gt, strLe_iff_ne_gt, lcCmp_swap s t]
  cases h : lcCmp s t <;> simp [Ordering.swap]

lemma strLe_trans (s t u : String) (h1 : strLe s t) (h2 : strLe t u) : strLe s u := by
  rw [strLe_iff_ne_gt] at h1 h2 ⊢
  cases hst : lcCmp s t with
  | gt => exact absurd hst h1
  | eq =>
    have he := (lcCmp_eq_iff s t).mp hst
    rw [he]
    exact h2
  | lt =>
    cases htu : lcCmp t u with
    | gt => exact absurd htu h2
    | eq =>
      have he := (lcCmp_eq_iff t u).mp htu
      rw [← he]
      simp [hst]
    | lt => simp [lcCmp_lt_trans s t u hst htu]

lemma strLe_antisymm (s t : String) (h1 : strLe s t) (h2 : strLe t s) : s = t := by
  rw [strLe_iff_ne_gt] at h1 h2
  cases hst : lcCmp s t with
  | eq => exact (lcCmp_eq_iff s t).mp hst
  | lt =>
    rw [lcCmp_swap, hst] at h2
    exact absurd rfl h2
  | gt => exact absurd hst h1

instance : IsTotal EventTypeOption titleLe :=
  ⟨fun a b => strLe_total a.title b.title⟩

instance : IsTrans EventTypeOption titleLe :=
  ⟨fun a b c h1 h2 => strLe_trans a.title b.title c.title h1 h2⟩

lemma sorted_perm_eq {α : Type} {r : α → α → Prop} :
    ∀ l₁ l₂ : List α, l₁.Perm l₂ → l₁.Sorted r → l₂.Sorted r →
      (∀ a ∈ l₁, ∀ b ∈ l₁, r a b → r b a → a = b) → l₁ = l₂ := by
  intro l₁
  induction l₁ with
  | nil =>
    intro l₂ hp _ _ _
    exact (hp.symm.eq_nil).symm
  | cons a t₁ ih =>
    intro l₂ hp hs1 hs2 hanti
    cases l₂ with
    | nil => exact absurd hp.eq_nil (by simp)
    | cons b t₂ =>
      by_cases hab : a = b
      · subst hab
        have htail := ih t₂ hp.cons_inv hs1.of_cons hs2.of_cons
          (fun x hx y hy => hanti x (List.mem_cons_of_mem _ hx) y (List.mem_cons_of_mem _ hy))
        rw [htail]
      · have hbmem : b ∈ a :: t₁ := hp.mem_iff.mpr (List.mem_cons_self b t₂)
        have hamem : a ∈ b :: t₂ := hp.mem_iff.mp (List.mem_cons_self a t₁)
        have hbt₁ : b ∈ t₁ := by
          rcases List.mem_cons.mp hbmem with h | h
          · exact absurd h.symm hab
          · exact h
        have hat₂ : a ∈ t₂ := by
          rcases List.mem_cons.mp hamem with h | h
          · exact absurd h hab
          · exact h
        have hrab : r a b := (List.sorted_cons.mp hs1).1 b hbt₁
        have hrba : r b a := (List.sorted_cons.mp hs2).1 a hat₂
        exact absurd (hanti a (List.mem_cons_self a t₁) b hbmem hrab hrba) hab

/-- C4: every selection option produced by `getEventTypeOptions` derives from
a source event type that is not hidden. -/
theorem c4_no_hidden_options (eventTypes : List CalcomEventType) (o : EventTypeOption)
    (ho : o ∈ getEventTypeOptions eventTypes) :
    ∃ et, et ∈ eventTypes ∧ et.hidden = false ∧ o = eventTypeToOption et := by
  unfold getEventTypeOptions at ho
  have hmem := (List.perm_insertionSort titleLe _).mem_iff.mp ho
  obtain ⟨et, hetmem, heq⟩ := List.mem_map.mp hmem
  obtain ⟨hmem2, hhid⟩ := List.mem_filter.mp hetmem
  exact ⟨et, hmem2, by simpa using hhid, heq.symm⟩

/-- Witness for C4: the visible event type appears, and the membership fact
is discharged on a concrete two-element list with one hidden entry. -/
theorem c4_no_hidden_options_witness :
    eventTypeToOption ⟨1, "Quick Chat", "quick", 15, false, 0, 7, none, none, none, none⟩ ∈
      getEventTypeOptions
        [⟨1, "Quick Chat", "quick", 15, false, 0, 7, none, none, none, none⟩,
         ⟨2, "Secret", "secret", 30, true, 1, 7, none, none, none, none⟩] ∧
    ∃ et, et ∈ ([⟨1, "Quick Chat", "quick", 15, false, 0, 7, none, none, none, none⟩,
         ⟨2, "Secret", "secret", 30, true, 1, 7, none, none, none, none⟩] :
           List CalcomEventType) ∧ et.hidden = false ∧
      eventTypeToOption ⟨1, "Quick Chat", "quick", 15, false, 0, 7, none, none, none, none⟩ =
        eventTypeToOption et :=
  ⟨by decide, c4_no_hidden_options _ _ (by decide)⟩

/-- C9: every selection option's `id` equals the `id` of the source event
type it was derived from. -/
theorem c9_option_id_from_source (eventTypes : List CalcomEventType) (o : EventTypeOption)
    (ho : o ∈ getEventTypeOptions eventTypes) :
    ∃ et, et ∈ eventTypes ∧ o = eventTypeToOption et ∧ o.id = et.id := by
  unfold getEventTypeOptions at ho
  have hmem := (List.perm_insertionSort titleLe _).mem_iff.mp ho
  obtain ⟨et, hetmem, heq⟩ := List.mem_map.mp hmem
  obtain ⟨hmem2, _⟩ := List.mem_filter.mp hetmem
  exact ⟨et, hmem2, heq.symm, by rw [← heq]; rfl⟩

/-- Witness for C9 on a concrete list whose two visible entries keep their
upstream ids. -/
theorem c9_option_id_from_source_witness :
    eventTypeToOption ⟨508082, "30 Min Meeting", "30min", 30, false, 0, 123, none, none, none, none⟩ ∈
      getEventTypeOptions
        [⟨508082, "30 Min Meeting", "30min", 30, false, 0, 123, none, none, none, none⟩,
         ⟨508083, "Audit", "audit", 60, false, 1, 123, none, none, none, none⟩] ∧
    ∃ et, et ∈ ([⟨508082, "30 Min Meeting", "30min", 30, false, 0, 123, none, none, none, none⟩,
         ⟨508083, "Audit", "audit", 60, false, 1, 123, none, none, none, none⟩] :
           List CalcomEventType) ∧
      eventTypeToOption ⟨508082, "30 Min Meeting", "30min", 30, false, 0, 123, none, none, none, none⟩ =
        eventTypeToOption et ∧
      (eventTypeToOption ⟨508082, "30 Min Meeting", "30min", 30, false, 0, 123, none, none, none, none⟩).id = et.id :=
  ⟨by decide, c9_option_id_from_source _ _ (by decide)⟩

/-- C5 counterexample: the code sorts with `localeCompare`, which orders
`"a"` before `"B"` while code-point order puts `"B"` (66) first, so the
output is not code-point sorted; and with two distinct visible types sharing
a title, the stable sort preserves input order, so permuting the input
changes the output. -/
theorem c5_claim_counterexample :
    ¬ ((getEventTypeOptions
          [⟨1, "a", "a", 30, false, 0, 1, none, none, none, none⟩,
           ⟨2, "B", "b", 30, false, 1, 1, none, none, none, none⟩]).Pairwise
        (fun a b => cpLe a.title b.title = true)) ∧
    ([⟨1, "x", "x1", 30, false, 0, 1, none, none, none, none⟩,
      ⟨2, "x", "x2", 30, false, 1, 1, none, none, none, none⟩] :
        List CalcomEventType).Perm
      [⟨2, "x", "x2", 30, false, 1, 1, none, none, none, none⟩,
       ⟨1, "x", "x1", 30, false, 0, 1, none, none, none, none⟩] ∧
    getEventTypeOptions
        [⟨1, "x", "x1", 30, false, 0, 1, none, none, none, none⟩,
         ⟨2, "x", "x2", 30, false, 1, 1, none, none, none, none⟩] ≠
      getEventTypeOptions
        [⟨2, "x", "x2", 30, false, 1, 1, none, none, none, none⟩,
         ⟨1, "x", "x1", 30, false, 0, 1, none, none, none, none⟩] := by
  refine ⟨?_, by decide, by decide⟩
  intro h
  exact absurd h (by decide)

/-- C5 as amended: the option list is sorted ascending by the
`localeCompare` collation (case-insensitive primary comparison, lowercase
before uppercase on ties), and permuting the input yields the same output
whenever the visible entries' titles are pairwise distinct. -/
theorem c5_sorted_by_collation (l₁ l₂ : List CalcomEventType) (hperm : l₁.Perm l₂)
    (hdist : ((l₁.filter (fun eventType => !eventType.hidden)).map eventTypeToOption).Pairwise
      (fun a b => a.title ≠ b.title)) :
    (getEventTypeOptions l₁).Sorted titleLe ∧
    getEventTypeOptions l₁ = getEventTypeOptions l₂ := by
  refine ⟨List.sorted_insertionSort titleLe _, ?_⟩
  unfold getEventTypeOptions
  apply sorted_perm_eq (r := titleLe)
  · exact ((List.perm_insertionSort titleLe _).trans ((hperm.filter _).map _)).trans
      (List.perm_insertionSort titleLe _).symm
  · exact List.sorted_insertionSort titleLe _
  · exact List.sorted_insertionSort titleLe _
  · intro a ha b hb hab hba
    have ha' := (List.perm_insertionSort titleLe _).mem_iff.mp ha
    have hb' := (List.perm_insertionSort titleLe _).mem_iff.mp hb
    by_cases heq : a = b
    · exact heq
    · have hsym : Symmetric (fun a b : EventTypeOption => a.title ≠ b.title) :=
        fun x y h e => h e.symm
      have hne := List.Pairwise.forall hsym hdist ha' hb' heq
      exact absurd (strLe_antisymm a.title b.title hab hba) hne

/-- Witness for C5 (amended): a concrete two-element permutation pair with
distinct visible titles. -/
theorem c5_sorted_by_collation_witness :
    (getEventTypeOptions
        [⟨1, "banana", "b", 30, false, 0, 1, none, none, none, none⟩,
         ⟨2, "Apple", "a", 15, false, 1, 1, none, none, none, none⟩]).Sorted titleLe ∧
    getEventTypeOptions
        [⟨1, "banana", "b", 30, false, 0, 1, none, none, none, none⟩,
         ⟨2, "Apple", "a", 15, false, 1, 1, none, none, none, none⟩] =
      getEventTypeOptions
        [⟨2, "Apple", "a", 15, false, 1, 1, none, none, none, none⟩,
         ⟨1, "banana", "b", 30, false, 0, 1, none, none, none, none⟩] :=
  c5_sorted_by_collation
    [⟨1, "banana", "b", 30, false, 0, 1, none, none, none, none⟩,
     ⟨2, "Apple", "a", 15, false, 1, 1, none, none, none, none⟩]
    [⟨2, "Apple", "a", 15, false, 1, 1, none, none, none, none⟩,
     ⟨1, "banana", "b", 30, false, 0, 1, none, none, none, none⟩]
    (by decide) (by decide)

/-- C6: when the freshly fetched event-type list contains no entry with the
requested id, `getSlotsForEventType` fails with the client-side not-found
`CalcomClientError` (no status code, never retried) after issuing exactly
the one event-type list request — no slots request is made. -/
theorem c6_not_found_no_slots_request (cfg : RetryConfig) (env : CalcomEnv)
    (eventTypeId : Nat) (start end_ timeZone : String) (fetched : List CalcomEventType)
    (h1 : env.eventTypes 1 = .ok fetched)
    (h2 : ∀ et ∈ fetched, et.id ≠ eventTypeId) :
    getSlotsForEventType cfg env eventTypeId start end_ timeZone =
      ([ApiRequest.eventTypes],
       .error ⟨s!"Event type with ID {eventTypeId} not found", none, none⟩) := by
  have hfind : fetched.find? (fun et => et.id == eventTypeId) = none := by
    rw [List.find?_eq_none]
    intro et hmem
    simpa using h2 et hmem
  have hreq : getEventTypes cfg env = ⟨1, [], .ok fetched⟩ := by
    unfold getEventTypes makeRequest
    cases cfg.maxRetries <;> simp [makeRequestAux, h1]
  unfold getSlotsForEventType
  rw [hreq]
  simp [hfind, List.replicate]

/-- Witness for C6 at the spec's `resolveTypeAndSlots(99999, …)` scenario:
a one-element list without id 99999 and environments that would answer any
slots request. -/
theorem c6_not_found_no_slots_request_witness :
    getSlotsForEventType ⟨3, 1000, 10000⟩
        ⟨fun _ => .ok [⟨508082, "30 Min Meeting", "30min", 30, false, 0, 123,
            none, none, none, none⟩],
         fun _ _ => .ok ⟨[]⟩, fun _ _ => .ok ⟨[]⟩⟩
        99999 "2025-06-12T00:00:00Z" "2025-06-19T23:59:59Z" "UTC" =
      ([ApiRequest.eventTypes],
       .error ⟨"Event type with ID 99999 not found", none, none⟩) :=
  c6_not_found_no_slots_request ⟨3, 1000, 10000⟩
    ⟨fun _ => .ok [⟨508082, "30 Min Meeting", "30min", 30, false, 0, 123,
        none, none, none, none⟩],
     fun _ _ => .ok ⟨[]⟩, fun _ _ => .ok ⟨[]⟩⟩
    99999 "2025-06-12T00:00:00Z" "2025-06-19T23:59:59Z" "UTC"
    [⟨508082, "30 Min Meeting", "30min", 30, false, 0, 123, none, none, none, none⟩]
    rfl (by decide)

/-- C7 counterexample: with `start`/`end` only, the service throws a plain
`Error` whose message names `eventTypeSlug`/`eventTypeId`, not the
`typeSlug`/`typeId` message quoted by the claim. -/
theorem c7_claim_counterexample :
    getAvailableSlots ⟨3, 1000, 10000⟩
        ⟨fun _ => .ok [], fun _ _ => .ok ⟨[]⟩, fun _ _ => .ok ⟨[]⟩⟩
        ⟨"2024-01-01T00:00:00Z", "2024-01-07T23:59:59Z", none, none, none, none⟩ =
      ([], .error (.jsError "Either username/eventTypeSlug or eventTypeId must be provided")) ∧
    "Either username/eventTypeSlug or eventTypeId must be provided" ≠
      "Either username/typeSlug or typeId must be provided" :=
  ⟨rfl, by decide⟩

/-- C7 as amended: a validated legacy input that offers neither a truthy
username-and-slug pair nor a truthy event-type id fails with the plain
thrown error `Either username/eventTypeSlug or eventTypeId must be
provided`, issues zero upstream requests, and that error kind is distinct
from the client's `CalcomClientError` failures. -/
theorem c7_missing_identification (cfg : RetryConfig) (env : CalcomEnv)
    (input : GetSlotsInput)
    (hstart : isoDatetime input.start = true) (hend : isoDatetime input.end_ = true)
    (hpair : (optStrTruthy input.username && optStrTruthy input.eventTypeSlug) = false)
    (hid : optNatTruthy input.eventTypeId = false) :
    getAvailableSlots cfg env input =
      ([], .error (.jsError "Either username/eventTypeSlug or eventTypeId must be provided")) ∧
    ∀ e : CalcomClientError,
      (SvcFailure.jsError "Either username/eventTypeSlug or eventTypeId must be provided") ≠
        SvcFailure.client e := by
  constructor
  · unfold getAvailableSlots parseGetSlotsInput
    simp [hstart, hend, hpair, hid]
  · intro e h
    exact SvcFailure.noConfusion h

/-- Witness for C7 (amended) at a concrete `{start, end}`-only input. -/
theorem c7_missing_identification_witness :
    getAvailableSlots ⟨2, 100, 1000⟩
        ⟨fun _ => .ok [], fun _ _ => .ok ⟨[]⟩, fun _ _ => .ok ⟨[]⟩⟩
        ⟨"2024-01-01T00:00:00Z", "2024-01-07T23:59:59Z", none, none, none, some "UTC"⟩ =
      ([], .error (.jsError "Either username/eventTypeSlug or eventTypeId must be provided")) ∧
    ∀ e : CalcomClientError,
      (SvcFailure.jsError "Either username/eventTypeSlug or eventTypeId must be provided") ≠
        SvcFailure.client e :=
  c7_missing_identification ⟨2, 100, 1000⟩
    ⟨fun _ => .ok [], fun _ _ => .ok ⟨[]⟩, fun _ _ => .ok ⟨[]⟩⟩
    ⟨"2024-01-01T00:00:00Z", "2024-01-07T23:59:59Z", none, none, none, some "UTC"⟩
    (by decide) (by decide) (by decide) (by decide)

lemma foldl_addFeature_eq (fs : List Feature) :
    ∀ acc : List Feature,
      (acc ++ fs).Pairwise (fun a b => a.info.name ≠ b.info.name) →
      fs.foldl addFeature acc = acc ++ fs := by
  induction fs with
  | nil => intro acc _; simp
  | cons f fs ih =>
    intro acc hpw
    have hany : acc.any (fun g => g.info.name == f.info.name) = false := by
      rw [List.any_eq_false]
      intro g hg
      have hne : g.info.name ≠ f.info.name :=
        (List.pairwise_append.mp hpw).2.2 g hg f (List.mem_cons_self f fs)
      simpa using hne
    rw [List.foldl_cons]
    have hstep : addFeature acc f = acc ++ [f] := by
      unfold addFeature
      rw [hany]
      simp
    have hrec := ih (acc ++ [f]) (by simpa using hpw)
    rw [hstep, hrec]
    simp

/-- C8: over a registry populated by `addFeature` with pairwise-distinct
names, `registerAllFeatures` yields exactly one outcome per integration in
insertion order; an integration whose `canLoad` is false gets the standard
missing-configuration failure outcome without its registration running, and
an integration whose `register` throws gets a failure outcome carrying the
thrown message — in every case independently of the other integrations, so
the rest still register. -/
theorem c8_register_all_outcomes (fs : List Feature)
    (hnames : fs.Pairwise (fun a b => a.info.name ≠ b.info.name)) :
    (registerAllFeatures (fs.foldl addFeature [])).length = fs.length ∧
    (∀ i (h : i < fs.length),
      (registerAllFeatures (fs.foldl addFeature [])).getD i ⟨true, none, none, none⟩ =
        registerFeatureStep (fs.get ⟨i, h⟩) ∧
      ((fs.get ⟨i, h⟩).canLoad = false →
        (registerAllFeatures (fs.foldl addFeature [])).getD i ⟨true, none, none, none⟩ =
          ⟨false, some (cannotLoadMessage (fs.get ⟨i, h⟩).info.name), none,
           some (fs.get ⟨i, h⟩).info⟩) ∧
      (∀ message, (fs.get ⟨i, h⟩).canLoad = true →
        (fs.get ⟨i, h⟩).register = .error message →
        (registerAllFeatures (fs.foldl addFeature [])).getD i ⟨true, none, none, none⟩ =
          ⟨false, some message, none, some (fs.get ⟨i, h⟩).info⟩)) := by
  have hreg : fs.foldl addFeature [] = fs := by
    have := foldl_addFeature_eq fs [] (by simpa using hnames)
    simpa using this
  rw [hreg]
  unfold registerAllFeatures
  refine ⟨by simp, ?_⟩
  intro i h
  have hlen : i < (fs.map registerFeatureStep).length := by simpa using h
  have hgetD : (fs.map registerFeatureStep).getD i ⟨true, none, none, none⟩ =
      registerFeatureStep (fs.get ⟨i, h⟩) := by
    rw [List.getD_eq_getElem _ _ hlen, List.getElem_map]
    rfl
  refine ⟨hgetD, ?_, ?_⟩
  · intro hcl
    rw [hgetD]
    unfold registerFeatureStep
    rw [hcl]
    rfl
  · intro message hcl hthrow
    rw [hgetD]
    unfold registerFeatureStep
    rw [hcl, hthrow]
    rfl

/-- Witness for C8 at the spec scenario: three integrations where the second
throws and the third cannot load; the batch still yields all three outcomes
in order. -/
theorem c8_register_all_outcomes_witness :
    (registerAllFeatures
        (([sampleFeatureOk, sampleFeatureThrows, sampleFeatureUnloadable] :
            List Feature).foldl addFeature [])).length = 3 ∧
    (registerAllFeatures
        (([sampleFeatureOk, sampleFeatureThrows, sampleFeatureUnloadable] :
            List Feature).foldl addFeature [])).getD 1 ⟨true, none, none, none⟩ =
      ⟨false, some "boom", none, some sampleFeatureThrows.info⟩ ∧
    (registerAllFeatures
        (([sampleFeatureOk, sampleFeatureThrows, sampleFeatureUnloadable] :
            List Feature).foldl addFeature [])).getD 2 ⟨true, none, none, none⟩ =
      ⟨false, some (cannotLoadMessage "three"), none, some sampleFeatureUnloadable.info⟩ := by
  have h := c8_register_all_outcomes
    [sampleFeatureOk, sampleFeatureThrows, sampleFeatureUnloadable] (by decide)
  refine ⟨h.1, ?_, ?_⟩
  · exact (h.2 1 (by decide)).2.2 "boom" rfl rfl
  · exact (h.2 2 (by decide)).2.1 rfl

/-- C10: a network failure (request sent, no response) maps to a
`CalcomClientError` with the fixed network message and with both
`statusCode` and `code` absent, while every response failure carries
`statusCode = some status` — so the absence of `statusCode` distinguishes
network failures from HTTP-status failures. -/
theorem c10_network_error_unclassified :
    handleError .networkError =
      ⟨"Network error: Unable to reach Cal.com API", none, none⟩ ∧
    (∀ (status : Nat) (body : Option CalcomErrorBody),
      (handleError (.httpError status body)).statusCode = some status) :=
  ⟨rfl, fun _ _ => rfl⟩
